import Mathlib

/-!
Verification of the mint handler-adapter library (package `m`, file mint.go).

The Go source is shallowly embedded: pure helpers become Lean functions,
the response writer and the global configuration become explicit state,
`error` values become an inductive `GoError`, and the JSON wire format of
the uniform structured error is modelled as an ordered field list
(mirroring the struct tags `code`, `error`, `message,omitempty`).
-/

/-! ## String helpers (strings.ToLower / strings.Contains) -/

/-- `strings.ToLower` restricted to ASCII (all messages in scope are ASCII). -/
def lowerStr (s : String) : String :=
  String.mk (s.data.map Char.toLower)

/-- Does `pat` occur at the very start of `hay`? -/
def matchesAt : List Char → List Char → Bool
  | _, [] => true
  | [], _ :: _ => false
  | a :: as, b :: bs => a == b && matchesAt as bs

/-- Does `pat` occur anywhere in the haystack? -/
def hasSubList (pat : List Char) : List Char → Bool
  | [] => pat.isEmpty
  | c :: t => matchesAt (c :: t) pat || hasSubList pat t

/-- `strings.Contains hay pat`. -/
def strContainsGo (hay pat : String) : Bool :=
  hasSubList pat.data hay.data

/-! ## Error data model (mint.go: HTTPError, ExtractError, error kinds) -/

/-- The uniform structured error (`HTTPError` in mint.go): json tags are
`code`, `error`, `message,omitempty`. -/
structure HTTPError where
  code : Int
  err : String
  message : String
deriving DecidableEq, Repr

/-- `ExtractError` from mint.go; the wrapped cause (`Err error`) is carried
as an optional message string. The Go field `Type` is `errType` here. -/
structure ExtractError where
  errType : String
  field : String
  value : String
  message : String
  cause : Option String
deriving DecidableEq, Repr

def ErrTypeBodyRead : String := "body_read_error"

def ErrTypeEmptyBody : String := "empty_body"

def ErrTypeFormParse : String := "form_parse_error"

def ErrTypePathConversion : String := "path_conversion_error"

def ErrTypeMissingPath : String := "missing_path_value"

def ErrTypeValidation : String := "validation_error"

/-- The `error` values that reach the error classifier, one constructor per
shape the Go type switch in `toHTTPError` distinguishes. `plain` is an
arbitrary error whose `Error()` text is the carried string. -/
inductive GoError where
  | httpErr (e : HTTPError)
  | extractErr (e : ExtractError)
  | jsonUnmarshalTypeError (field ty value : String)
  | jsonSyntaxError
  | schemaMultiError (fields : List (String × String))
  | schemaConversionError (key : String)
  | schemaUnknownKeyError (key : String)
  | plain (msg : String)
deriving DecidableEq, Repr

/-- Constructors of `ExtractError` (mint.go `NewBodyReadError` …). -/
def NewBodyReadError (cause : String) : ExtractError :=
  { errType := ErrTypeBodyRead, field := "", value := "",
    message := "failed to read request body", cause := some cause }

def NewEmptyBodyError : ExtractError :=
  { errType := ErrTypeEmptyBody, field := "", value := "",
    message := "request body is required", cause := none }

def NewFormParseError (cause : String) : ExtractError :=
  { errType := ErrTypeFormParse, field := "", value := "",
    message := "invalid form data format", cause := some cause }

def NewPathConversionError (field value targetType cause : String) : ExtractError :=
  { errType := ErrTypePathConversion, field := field, value := value,
    message := "invalid path parameter \"" ++ field ++ "\": cannot convert \"" ++
      value ++ "\" to " ++ targetType,
    cause := some cause }

def NewMissingPathError (field : String) : ExtractError :=
  { errType := ErrTypeMissingPath, field := field, value := "",
    message := "missing required path parameter: " ++ field, cause := none }

/-! ## Status inference (mint.go: inferStatusCode, inferErrorType) -/

def inferStatusCode (msg : String) : Int :=
  let lower := lowerStr msg
  if strContainsGo lower ("not found") then 404
  else if strContainsGo lower ("unauthorized") then 401
  else if strContainsGo lower ("forbidden") then 403
  else if strContainsGo lower ("timeout") then 408
  else if strContainsGo lower ("bad request") || strContainsGo lower ("invalid") then 400
  else 500

def inferErrorType (code : Int) : String :=
  if code = 400 then "bad_request"
  else if code = 401 then "unauthorized"
  else if code = 403 then "forbidden"
  else if code = 404 then "not_found"
  else if code = 408 then "timeout"
  else "internal_error"

/-! ## Error classification (mint.go: toHTTPError) -/

/-- The `ExtractError` arm of `toHTTPError` (the `switch extractErr.Type`). -/
def extractErrToHTTP (e : ExtractError) : HTTPError :=
  if e.errType = ErrTypeBodyRead then
    ⟨500, "internal_server_error", "unable to process request"⟩
  else if e.errType = ErrTypeEmptyBody then ⟨400, "empty_body", e.message⟩
  else if e.errType = ErrTypeFormParse then ⟨400, "invalid_form", e.message⟩
  else if e.errType = ErrTypePathConversion then ⟨400, "invalid_path_parameter", e.message⟩
  else if e.errType = ErrTypeMissingPath then ⟨400, "missing_path_parameter", e.message⟩
  else if e.errType = ErrTypeValidation then ⟨400, "validation_failed", e.message⟩
  else ⟨400, e.errType, e.message⟩

/-- `toHTTPError` on a non-nil error. -/
def toHTTPErrorSome : GoError → HTTPError
  | .httpErr h => h
  | .extractErr e => extractErrToHTTP e
  | .jsonUnmarshalTypeError f ty v =>
    ⟨400, "invalid_json_type", "field \"" ++ f ++ "\" expects " ++ ty ++ " but got " ++ v⟩
  | .jsonSyntaxError => ⟨400, "invalid_json_syntax", "invalid JSON syntax"⟩
  | .schemaMultiError fields =>
    ⟨400, "validation_failed",
      String.intercalate ("; ") (fields.map (fun p => p.1 ++ ": " ++ p.2))⟩
  | .schemaConversionError k => ⟨400, "conversion_failed", "cannot convert field \"" ++ k ++ "\""⟩
  | .schemaUnknownKeyError k => ⟨400, "unknown_field", "unknown field: " ++ k⟩
  | .plain msg =>
    let code := inferStatusCode msg
    ⟨code, inferErrorType code, ""⟩

/-- `toHTTPError` including the nil guard of the source. -/
def toHTTPError : Option GoError → Option HTTPError
  | none => none
  | some e => some (toHTTPErrorSome e)

/-! ## JSON wire model for the structured error -/

inductive JVal where
  | num (n : Int)
  | str (s : String)
deriving DecidableEq, Repr

/-- A piece of response body: plain bytes/text, or a JSON object written by
the configured JSON encode strategy (field order follows the struct). -/
inductive Chunk where
  | text (s : String)
  | json (fields : List (String × JVal))
deriving DecidableEq, Repr

/-- `encoding/json` on `HTTPError`: `code`, `error`, and `message` only when
non-empty (`omitempty`). -/
def encodeHTTPError (e : HTTPError) : List (String × JVal) :=
  [("code", JVal.num e.code), ("error", JVal.str e.err)] ++
    (if e.message = "" then [] else [("message", JVal.str e.message)])

/-! ## Response wrapper (mint.go: ResponseWriter) -/

/-- The decorated response writer. `warnings` counts warning-level log
lines emitted through the configured logger. `body` is the ordered list of
chunks written to the underlying writer. -/
structure ResponseWriter where
  statusCode : Int
  headerWritten : Bool
  headers : List (String × String)
  body : List Chunk
  warnings : Nat
deriving Repr

/-- The zero-valued wrapper allocated per request in `H`. -/
def ResponseWriter.fresh : ResponseWriter :=
  { statusCode := 0, headerWritten := false, headers := [], body := [], warnings := 0 }

/-- `ResponseWriter.WriteHeader`. -/
def ResponseWriter.writeHeader (rw : ResponseWriter) (code : Int) : ResponseWriter :=
  if rw.headerWritten then { rw with warnings := rw.warnings + 1 }
  else
    let code2 := if code ≤ 0 then 200 else code
    { rw with statusCode := code2, headerWritten := true }

/-- `ResponseWriter.Write`. -/
def ResponseWriter.write (rw : ResponseWriter) (ch : Chunk) : ResponseWriter :=
  let rw2 := if rw.headerWritten then rw else rw.writeHeader 200
  { rw2 with body := rw2.body ++ [ch] }

/-- `w.Header().Set(k, v)`. -/
def ResponseWriter.headerSet (rw : ResponseWriter) (k v : String) : ResponseWriter :=
  { rw with headers := rw.headers.filter (fun p => p.1 ≠ k) ++ [(k, v)] }

/-- `w.Header().Add(k, v)`. -/
def ResponseWriter.headerAdd (rw : ResponseWriter) (k v : String) : ResponseWriter :=
  { rw with headers := rw.headers ++ [(k, v)] }

/-! ## Global configuration state (mint.go: config, getConfig, CustomErrorHandler) -/

/-- The part of `Config` the modelled paths consult. -/
structure Config where
  enableValidation : Bool
deriving DecidableEq, Repr

/-- Package-level mutable state: `config` (nil until set or lazily
defaulted) and `CustomErrorHandler`. -/
structure GlobalState where
  config : Option Config
  customErrorHandler : Option (ResponseWriter → GoError → ResponseWriter)

/-- `getConfig`: lazily installs the default configuration, then returns it. -/
def getConfig (g : GlobalState) : GlobalState × Config :=
  match g.config with
  | some c => (g, c)
  | none =>
    let c : Config := { enableValidation := true }
    ({ g with config := some c }, c)

/-- Outcome of a write path: normal completion, or the Go runtime panic
from dereferencing a nil `*Config`. -/
inductive WriteOutcome where
  | ok (rw : ResponseWriter)
  | nilDeref

/-! ## Response and error writers (mint.go: handleCommonTypes, handleError, handleResult) -/

/-- A handler return value as seen by `handleCommonTypes`, one constructor
per arm of the source's type switch, in source order. A value not matched
by any earlier arm is represented by the JSON object the default arm would
encode it to. -/
inductive Payload where
  | nilData
  | responder (eff : ResponseWriter → ResponseWriter)
  | str (s : String)
  | statusCode (c : Int)
  | bytes (s : String)
  | html (s : String)
  | reader (s : String)
  | jsonData (fields : List (String × JVal))

/-- `handleCommonTypes`. Note the default (JSON) arm reads the raw package
variable `config`, not `getConfig()`. -/
def handleCommonTypes (g : GlobalState) (rw : ResponseWriter) (data : Payload) : WriteOutcome :=
  match data with
  | .nilData => .ok rw
  | .responder eff => .ok (eff rw)
  | .str s =>
    .ok ((rw.headerSet ("Content-Type") ("text/plain; charset=utf-8")).write (.text s))
  | .statusCode c => .ok (rw.writeHeader c)
  | .bytes s =>
    .ok ((rw.headerSet ("Content-Type") ("application/octet-stream")).write (.text s))
  | .html s =>
    .ok ((rw.headerSet ("Content-Type") ("text/html; charset=utf-8")).write (.text s))
  | .reader s => .ok (rw.write (.text s))
  | .jsonData fields =>
    let rw1 := rw.headerSet ("Content-Type") ("application/json; charset=utf-8")
    match g.config with
    | none => .nilDeref
    | some _ => .ok (rw1.write (.json fields))

/-- `handleError`. The final encode also reads the raw `config` variable. -/
def handleError (g : GlobalState) (rw : ResponseWriter) (err : GoError) : WriteOutcome :=
  match g.customErrorHandler with
  | some h => .ok (h rw err)
  | none =>
    let statusWritten := rw.headerWritten
    match toHTTPError (some err) with
    | none => .ok rw
    | some httpErr =>
      let rw1 := rw.headerSet ("Content-Type") ("application/json; charset=utf-8")
      let rw2 := if statusWritten then rw1 else rw1.writeHeader httpErr.code
      match g.config with
      | none => .nilDeref
      | some _ => .ok (rw2.write (.json (encodeHTTPError httpErr)))

/-- `WriteHeaders`. -/
def WriteHeadersRW (rw : ResponseWriter) (hs : List (String × String)) : ResponseWriter :=
  hs.foldl (fun rw p => rw.headerAdd p.1 p.2) rw

/-- `Result[any]` after `toResult`: status code (0 = unset), optional
header multimap (none = nil), payload, optional failure. -/
structure ResultAny where
  code : Int
  headers : Option (List (String × String))
  data : Payload
  err : Option GoError

/-- `handleResult`. -/
def handleResult (g : GlobalState) (rw : ResponseWriter) (r : ResultAny) : WriteOutcome :=
  let rw1 := match r.headers with
    | some hs => WriteHeadersRW rw hs
    | none => rw
  let rw2 := if r.code ≠ 0 then rw1.writeHeader r.code else rw1
  match r.err with
  | some e => handleError g rw2 e
  | none => handleCommonTypes g rw2 r.data

/-! ## Go strconv parsers (strconv.Atoi / ParseInt / ParseUint / ParseBool) -/

/-- Accumulate base-10 digits; `none` on any non-digit. -/
def parseDecDigits (cs : List Char) : Option Nat :=
  cs.foldl
    (fun acc c =>
      match acc with
      | none => none
      | some n => if c.isDigit then some (n * 10 + (c.toNat - 48)) else none)
    (some 0)

/-- `strconv.ParseUint(s, 10, 64)`: no sign, non-empty, base-10 digits,
range-checked. Error strings are `strconv.ErrSyntax` / `strconv.ErrRange`
messages. -/
def goParseUint64 (s : String) : Except String Nat :=
  if s.data = [] then .error ("invalid syntax")
  else
    match parseDecDigits s.data with
    | none => .error ("invalid syntax")
    | some n => if n < 2 ^ 64 then .ok n else .error ("value out of range")

/-- `strconv.ParseInt(s, 10, 64)`: optional sign, then digits; range
`-2^63 .. 2^63-1`. -/
def goParseInt64 (s : String) : Except String Int :=
  match s.data with
  | [] => .error ("invalid syntax")
  | c :: rest =>
    let p : Bool × List Char :=
      if c = '-' then (true, rest)
      else if c = '+' then (false, rest)
      else (false, c :: rest)
    if p.2 = [] then .error ("invalid syntax")
    else
      match parseDecDigits p.2 with
      | none => .error ("invalid syntax")
      | some n =>
        if p.1 then
          if n ≤ 2 ^ 63 then .ok (-(n : Int)) else .error ("value out of range")
        else
          if n ≤ 2 ^ 63 - 1 then .ok (n : Int) else .error ("value out of range")

/-- `strconv.Atoi` (64-bit platform: ParseInt base 10, bitSize 0 = 64). -/
def goAtoi (s : String) : Except String Int :=
  goParseInt64 s

/-- `strconv.ParseBool`: the fixed set of accepted literals. -/
def goParseBool (s : String) : Except String Bool :=
  if s = "1" ∨ s = "t" ∨ s = "T" ∨ s = "true" ∨ s = "TRUE" ∨ s = "True" then .ok true
  else if s = "0" ∨ s = "f" ∨ s = "F" ∨ s = "false" ∨ s = "FALSE" ∨ s = "False" then .ok false
  else .error ("invalid syntax")

/-! ## Path extractor (mint.go: Path[T].Extract) -/

/-- The target primitive of a `Path[T]` instantiation. The source also has
a `float64` arm; it is not modelled (floating point). -/
inductive PathTarget where
  | tString
  | tInt
  | tInt64
  | tUint
  | tUint64
  | tBool
deriving DecidableEq, Repr

inductive PathVal where
  | pvString (s : String)
  | pvInt (n : Int)
  | pvInt64 (n : Int)
  | pvUint (n : Nat)
  | pvUint64 (n : Nat)
  | pvBool (b : Bool)
deriving DecidableEq, Repr

/-- `Path[T].Extract` on a request where the named path segment resolves to
`pv` (`r.PathValue` yields `""` when the segment is absent). -/
def pathExtract (key : String) (t : PathTarget) (pv : String) : Except ExtractError PathVal :=
  if pv = "" then .error (NewMissingPathError key)
  else
    match t with
    | .tString => .ok (.pvString pv)
    | .tInt =>
      match goAtoi pv with
      | .error e => .error (NewPathConversionError key pv ("int") e)
      | .ok v => .ok (.pvInt v)
    | .tInt64 =>
      match goParseInt64 pv with
      | .error e => .error (NewPathConversionError key pv ("int64") e)
      | .ok v => .ok (.pvInt64 v)
    | .tUint =>
      match goParseUint64 pv with
      | .error e => .error (NewPathConversionError key pv ("uint") e)
      | .ok v => .ok (.pvUint v)
    | .tUint64 =>
      match goParseUint64 pv with
      | .error e => .error (NewPathConversionError key pv ("uint64") e)
      | .ok v => .ok (.pvUint64 v)
    | .tBool =>
      match goParseBool pv with
      | .error e => .error (NewPathConversionError key pv ("bool") e)
      | .ok v => .ok (.pvBool v)

/-! ## Route-pattern scan (mint.go: extractPatternNames) -/

/-- Loop state of `extractPatternNames`; `warnings` counts logged warnings. -/
structure ScanState where
  inParam : Bool
  currentName : String
  depth : Int
  names : List String
  warnings : Nat
deriving DecidableEq, Repr

/-- One character of the scan, mirroring the source's `for` body. -/
def scanStep (st : ScanState) (c : Char) : ScanState :=
  if c = '{' then
    { st with
      warnings := if st.inParam then st.warnings + 1 else st.warnings,
      inParam := true, depth := st.depth + 1, currentName := "" }
  else if c = '}' then
    if st.inParam then
      { st with
        inParam := false, depth := st.depth - 1,
        names := if st.currentName ≠ "" then st.names ++ [st.currentName] else st.names }
    else { st with warnings := st.warnings + 1 }
  else if st.inParam then { st with currentName := st.currentName.push c }
  else st

def initScan : ScanState :=
  { inParam := false, currentName := "", depth := 0, names := [], warnings := 0 }

def scanPattern (p : String) : ScanState :=
  p.data.foldl scanStep initScan

/-- `extractPatternNames` together with the total number of logged
warnings (the end-of-string unbalanced-braces check included). -/
def extractPatternNamesW (p : String) : List String × Nat :=
  let st := scanPattern p
  (st.names, if st.depth ≠ 0 then st.warnings + 1 else st.warnings)

def extractPatternNames (p : String) : List String :=
  (extractPatternNamesW p).1

/-! ## Per-request parameter loop (mint.go: the closure returned by H) -/

/-- A declared handler parameter as classified at wrap time. For an
extractor parameter, `decode` is its `Extract` step on the incoming
request, as a function of the key assigned via `SetKey` (`none` when the
extractor is not key-settable); it returns the extraction failure, if any. -/
inductive ParamSpec where
  | extractor (keySettable : Bool) (decode : Option String → Option GoError)
  | rawWriter
  | rawRequest

/-- Result of the parameter loop: `log.Panicf` on exhausted path names, an
error response written without invoking the handler, or handler invocation
(recording the key assigned to each parameter, in order). -/
inductive LoopOutcome where
  | panicked
  | errorResp (out : WriteOutcome)
  | invoke (keys : List (Option String))

def LoopOutcome.isInvoke : LoopOutcome → Bool
  | .invoke _ => true
  | _ => false

/-- The parameter loop of `H`'s per-request closure: `keyIdx` is the next
unused index into `pathKeys`; `acc` accumulates assigned keys (reversed). -/
def runParamsAux (g : GlobalState) (rw : ResponseWriter) (pathKeys : List String) :
    Nat → List ParamSpec → List (Option String) → LoopOutcome
  | _, [], acc => .invoke acc.reverse
  | keyIdx, .rawWriter :: rest, acc => runParamsAux g rw pathKeys keyIdx rest (none :: acc)
  | keyIdx, .rawRequest :: rest, acc => runParamsAux g rw pathKeys keyIdx rest (none :: acc)
  | keyIdx, .extractor ks decode :: rest, acc =>
    if ks then
      match pathKeys[keyIdx]? with
      | none => .panicked
      | some key =>
        match decode (some key) with
        | some err => .errorResp (handleError g rw err)
        | none => runParamsAux g rw pathKeys (keyIdx + 1) rest (some key :: acc)
    else
      match decode none with
      | some err => .errorResp (handleError g rw err)
      | none => runParamsAux g rw pathKeys keyIdx rest (none :: acc)

/-- The whole extraction phase for a request matched by `pattern`. -/
def runParams (g : GlobalState) (rw : ResponseWriter) (pattern : String)
    (params : List ParamSpec) : LoopOutcome :=
  runParamsAux g rw (extractPatternNames pattern) 0 params []

/-- The key the loop would assign to a parameter at `keyIdx` (`none` result
means the loop panics instead). -/
def nextKeyOf (ks : Bool) (pathKeys : List String) (keyIdx : Nat) : Option (Option String) :=
  if ks then (pathKeys[keyIdx]?).map some else some none

/-! ## Spec-side definitions (§4.4 step 4 of the specification) -/

/-- Modelled from the spec: the status the specification's table assigns to
an extraction-failure kind. -/
def specStatusOf (kind : String) : Int :=
  if kind = ErrTypeBodyRead then 500 else 400

/-- Modelled from the spec: the tag the specification's table assigns to an
extraction-failure kind (any other kind maps to itself). -/
def specTagOf (kind : String) : String :=
  if kind = ErrTypeBodyRead then "internal_server_error"
  else if kind = ErrTypeEmptyBody then "empty_body"
  else if kind = ErrTypeFormParse then "invalid_form"
  else if kind = ErrTypePathConversion then "invalid_path_parameter"
  else if kind = ErrTypeMissingPath then "missing_path_parameter"
  else if kind = ErrTypeValidation then "validation_failed"
  else kind

/-- The message the structured error actually carries for an extraction
failure: carried through unchanged, except for the body-read kind, which
gets a fixed replacement text. -/
def amendedMsgOf (e : ExtractError) : String :=
  if e.errType = ErrTypeBodyRead then "unable to process request" else e.message

/-! ## Helper lemmas on the response wrapper -/

@[simp]
theorem ResponseWriter.writeHeader_headerWritten (rw : ResponseWriter) (c : Int) :
    (rw.writeHeader c).headerWritten = true := by
  unfold ResponseWriter.writeHeader
  split <;> simp_all

@[simp]
theorem ResponseWriter.writeHeader_body (rw : ResponseWriter) (c : Int) :
    (rw.writeHeader c).body = rw.body := by
  unfold ResponseWriter.writeHeader
  split <;> rfl

@[simp]
theorem ResponseWriter.headerSet_body (rw : ResponseWriter) (k v : String) :
    (rw.headerSet k v).body = rw.body := rfl

@[simp]
theorem ResponseWriter.headerSet_headerWritten (rw : ResponseWriter) (k v : String) :
    (rw.headerSet k v).headerWritten = rw.headerWritten := rfl

@[simp]
theorem ResponseWriter.headerAdd_body (rw : ResponseWriter) (k v : String) :
    (rw.headerAdd k v).body = rw.body := rfl

@[simp]
theorem WriteHeadersRW_body (hs : List (String × String)) (rw : ResponseWriter) :
    (WriteHeadersRW rw hs).body = rw.body := by
  induction hs generalizing rw with
  | nil => rfl
  | cons p t ih => simpa [WriteHeadersRW] using ih (rw.headerAdd p.1 p.2)

@[simp]
theorem ResponseWriter.write_body (rw : ResponseWriter) (ch : Chunk) :
    (rw.write ch).body = rw.body ++ [ch] := by
  unfold ResponseWriter.write
  split <;> simp

theorem ResponseWriter.write_committed (rw : ResponseWriter) (ch : Chunk)
    (h : rw.headerWritten = true) :
    rw.write ch = { rw with body := rw.body ++ [ch] } := by
  unfold ResponseWriter.write
  simp [h]

theorem ResponseWriter.writeHeader_of_written (rw : ResponseWriter) (c : Int)
    (h : rw.headerWritten = true) :
    rw.writeHeader c = { rw with warnings := rw.warnings + 1 } := by
  unfold ResponseWriter.writeHeader
  simp [h]

/-! ## Sequences of status-set / body-write operations -/

/-- One operation a handler (or the framework) may perform on the wrapper. -/
inductive WOp where
  | setStatus (c : Int)
  | writeBody (ch : Chunk)

def applyOps : ResponseWriter → List WOp → ResponseWriter
  | rw, [] => rw
  | rw, .setStatus c :: rest => applyOps (rw.writeHeader c) rest
  | rw, .writeBody ch :: rest => applyOps (rw.write ch) rest

def countSetStatus : List WOp → Nat
  | [] => 0
  | .setStatus _ :: rest => countSetStatus rest + 1
  | .writeBody _ :: rest => countSetStatus rest

theorem applyOps_committed (ops : List WOp) (rw : ResponseWriter)
    (h : rw.headerWritten = true) :
    (applyOps rw ops).statusCode = rw.statusCode ∧
    (applyOps rw ops).headerWritten = true ∧
    (applyOps rw ops).warnings = rw.warnings + countSetStatus ops := by
  induction ops generalizing rw with
  | nil => simpa [applyOps, countSetStatus] using h
  | cons op rest ih =>
    cases op with
    | setStatus c =>
      have hstep := ResponseWriter.writeHeader_of_written rw c h
      have := ih (rw.writeHeader c) (by simp)
      rw [hstep] at this
      simp only [applyOps, hstep]
      refine ⟨this.1, this.2.1, ?_⟩
      rw [this.2.2]
      simp [countSetStatus]
      omega
    | writeBody ch =>
      have hstep := ResponseWriter.write_committed rw ch h
      have := ih (rw.write ch) (by rw [hstep]; exact h)
      rw [hstep] at this
      simp only [applyOps, hstep]
      exact ⟨this.1, this.2.1, by rw [this.2.2]; simp [countSetStatus]⟩

/-- C3: on one response wrapper the first committed status always wins:
once the committed flag is set, every later status-set attempt adds a
warning log line and leaves the committed status unchanged; in particular
committing 200 and then attempting 500 leaves the status 200 (with one
warning logged). -/
theorem C3_first_committed_status_wins :
    (∀ (rw : ResponseWriter) (ops : List WOp), rw.headerWritten = true →
      (applyOps rw ops).statusCode = rw.statusCode ∧
      (applyOps rw ops).headerWritten = true ∧
      (applyOps rw ops).warnings = rw.warnings + countSetStatus ops) ∧
    (∀ (c : Int) (ops : List WOp), 0 < c →
      (applyOps (ResponseWriter.fresh.writeHeader c) ops).statusCode = c) ∧
    ((ResponseWriter.fresh.writeHeader 200).writeHeader 500).statusCode = 200 ∧
    ((ResponseWriter.fresh.writeHeader 200).writeHeader 500).warnings =
      (ResponseWriter.fresh.writeHeader 200).warnings + 1 := by
  refine ⟨fun rw ops h => applyOps_committed ops rw h, fun c ops hc => ?_, by rfl, by rfl⟩
  have hfresh : (ResponseWriter.fresh.writeHeader c).statusCode = c := by
    unfold ResponseWriter.writeHeader ResponseWriter.fresh
    simp
    omega
  rw [(applyOps_committed ops _ (by simp)).1, hfresh]

/-- Witness for C3 at the spec's example: status 200 committed, then a
status-set of 500 attempted via the operation list. -/
theorem C3_first_committed_status_wins_witness :
    (applyOps (ResponseWriter.fresh.writeHeader 200) [WOp.setStatus 500]).statusCode = 200 :=
  C3_first_committed_status_wins.2.1 200 [WOp.setStatus 500] (by decide)

/-- C8: an explicit non-positive status commits 200 instead; writing body
bytes before any explicit status-set implicitly commits 200 first; and a
numeric-status-only return of 0 yields a 200 response. -/
theorem C8_status_normalization :
    (∀ (rw : ResponseWriter) (c : Int), rw.headerWritten = false → c ≤ 0 →
      rw.writeHeader c = { rw with statusCode := 200, headerWritten := true }) ∧
    (∀ (rw : ResponseWriter) (ch : Chunk), rw.headerWritten = false →
      rw.write ch =
        { rw with statusCode := 200, headerWritten := true, body := rw.body ++ [ch] }) ∧
    (∀ (g : GlobalState) (rw : ResponseWriter), rw.headerWritten = false →
      handleCommonTypes g rw (.statusCode 0) =
        .ok { rw with statusCode := 200, headerWritten := true }) := by
  refine ⟨fun rw c h hc => ?_, fun rw ch h => ?_, fun g rw h => ?_⟩
  · unfold ResponseWriter.writeHeader
    simp [h, hc]
  · unfold ResponseWriter.write ResponseWriter.writeHeader
    simp [h]
  · show WriteOutcome.ok (rw.writeHeader 0) = _
    unfold ResponseWriter.writeHeader
    simp [h]

/-- Witness for C8 on the zero-valued wrapper and status 0. -/
theorem C8_status_normalization_witness :
    ResponseWriter.fresh.writeHeader 0 =
      { ResponseWriter.fresh with statusCode := 200, headerWritten := true } :=
  C8_status_normalization.1 ResponseWriter.fresh 0 rfl (by decide)

/-! ## Message-based status inference (claims C4, C10) -/

/-- C4: fallback classification infers the status by case-insensitive
substring search over the error message, in the priority order
not found→404, unauthorized→401, forbidden→403, timeout→408,
bad request / invalid→400, otherwise 500; the tag is the canonical name of
the inferred status; the spec's three examples are reproduced. -/
theorem C4_message_inference :
    (∀ msg, strContainsGo (lowerStr msg) ("not found") = true →
      inferStatusCode msg = 404) ∧
    (∀ msg, strContainsGo (lowerStr msg) ("not found") = false →
      strContainsGo (lowerStr msg) ("unauthorized") = true →
      inferStatusCode msg = 401) ∧
    (∀ msg, strContainsGo (lowerStr msg) ("not found") = false →
      strContainsGo (lowerStr msg) ("unauthorized") = false →
      strContainsGo (lowerStr msg) ("forbidden") = true →
      inferStatusCode msg = 403) ∧
    (∀ msg, strContainsGo (lowerStr msg) ("not found") = false →
      strContainsGo (lowerStr msg) ("unauthorized") = false →
      strContainsGo (lowerStr msg) ("forbidden") = false →
      strContainsGo (lowerStr msg) ("timeout") = true →
      inferStatusCode msg = 408) ∧
    (∀ msg, strContainsGo (lowerStr msg) ("not found") = false →
      strContainsGo (lowerStr msg) ("unauthorized") = false →
      strContainsGo (lowerStr msg) ("forbidden") = false →
      strContainsGo (lowerStr msg) ("timeout") = false →
      (strContainsGo (lowerStr msg) ("bad request") = true ∨
        strContainsGo (lowerStr msg) ("invalid") = true) →
      inferStatusCode msg = 400) ∧
    (∀ msg, strContainsGo (lowerStr msg) ("not found") = false →
      strContainsGo (lowerStr msg) ("unauthorized") = false →
      strContainsGo (lowerStr msg) ("forbidden") = false →
      strContainsGo (lowerStr msg) ("timeout") = false →
      strContainsGo (lowerStr msg) ("bad request") = false →
      strContainsGo (lowerStr msg) ("invalid") = false →
      inferStatusCode msg = 500) ∧
    (∀ msg, toHTTPErrorSome (.plain msg) =
      ⟨inferStatusCode msg, inferErrorType (inferStatusCode msg), ""⟩) ∧
    toHTTPErrorSome (.plain "Resource not found") = ⟨404, "not_found", ""⟩ ∧
    toHTTPErrorSome (.plain "request timeout") = ⟨408, "timeout", ""⟩ ∧
    toHTTPErrorSome (.plain "something exploded") = ⟨500, "internal_error", ""⟩ := by
  refine ⟨fun msg h1 => ?_, fun msg h1 h2 => ?_, fun msg h1 h2 h3 => ?_,
    fun msg h1 h2 h3 h4 => ?_, fun msg h1 h2 h3 h4 h5 => ?_,
    fun msg h1 h2 h3 h4 h5 h6 => ?_, fun msg => rfl, by rfl, by rfl, by rfl⟩ <;>
      simp [inferStatusCode, h1]
  · simp [h2]
  · simp [h2, h3]
  · simp [h2, h3, h4]
  · rcases h5 with h5 | h5 <;> simp [h2, h3, h4, h5]
  · simp [h2, h3, h4, h5, h6]

/-- Witness for C4 at the message "Resource not found". -/
theorem C4_message_inference_witness :
    inferStatusCode "Resource not found" = 404 :=
  C4_message_inference.1 "Resource not found" (by rfl)

/-- C10: an error classified by the fallback inference step produces a
structured error whose message is empty, so (via `omitempty`) the JSON
envelope holds exactly the `code` and `error` fields — the original
error's free text never appears as the message. -/
theorem C10_inferred_error_no_message (msg : String) :
    (toHTTPErrorSome (.plain msg)).message = "" ∧
    encodeHTTPError (toHTTPErrorSome (.plain msg)) =
      [("code", JVal.num (inferStatusCode msg)),
       ("error", JVal.str (inferErrorType (inferStatusCode msg)))] := by
  constructor
  · rfl
  · simp [toHTTPErrorSome, encodeHTTPError]

/-! ## Path extractor behaviour (claim C5) -/

/-- C5: a Path extractor fails with a missing-path-value failure on an
absent/empty segment (an absent segment resolves to the empty string);
otherwise the text parses by the standard base-10 / boolean literal rules:
`Path[int]` on "42" yields 42, `Path[bool]` on "true"/"false" yields
true/false, and `Path[bool]` on "yes" fails with a path-conversion failure
carrying the field name, the raw text, the target type name and the
underlying parse error. -/
theorem C5_path_extractor :
    (∀ (key : String) (t : PathTarget),
      pathExtract key t ("") = .error (NewMissingPathError key)) ∧
    (∀ key : String, pathExtract key .tInt ("42") = .ok (.pvInt 42)) ∧
    (∀ key : String, pathExtract key .tBool ("true") = .ok (.pvBool true)) ∧
    (∀ key : String, pathExtract key .tBool ("false") = .ok (.pvBool false)) ∧
    (∀ key : String, pathExtract key .tBool ("yes") =
      .error (NewPathConversionError key ("yes") ("bool") ("invalid syntax"))) := by
  refine ⟨fun key t => ?_, fun key => rfl, fun key => rfl, fun key => rfl, fun key => rfl⟩
  unfold pathExtract
  simp

/-! ## Route-pattern scan behaviour (claim C7) -/

/-- C7: the left-to-right scan of a route pattern: `{` opens a name
capture; a nested `{` while already capturing logs a warning and stays in
capture mode; a `}` closes the capture and appends the captured name only
when non-empty; an unmatched `}` logs a warning and is otherwise ignored;
any other character extends the current name exactly when capturing; and
unbalanced braces at end of string log one extra warning. -/
theorem C7_pattern_scan :
    (∀ st : ScanState, st.inParam = false →
      scanStep st '{' =
        { st with inParam := true, depth := st.depth + 1, currentName := "" }) ∧
    (∀ st : ScanState, st.inParam = true →
      scanStep st '{' =
        { st with
            inParam := true, warnings := st.warnings + 1,
            depth := st.depth + 1, currentName := "" }) ∧
    (∀ st : ScanState, st.inParam = true → st.currentName ≠ "" →
      scanStep st '}' =
        { st with
            inParam := false, depth := st.depth - 1,
            names := st.names ++ [st.currentName] }) ∧
    (∀ st : ScanState, st.inParam = true → st.currentName = "" →
      scanStep st '}' = { st with inParam := false, depth := st.depth - 1 }) ∧
    (∀ st : ScanState, st.inParam = false →
      scanStep st '}' = { st with warnings := st.warnings + 1 }) ∧
    (∀ (st : ScanState) (c : Char), c ≠ '{' → c ≠ '}' → st.inParam = true →
      scanStep st c = { st with currentName := st.currentName.push c }) ∧
    (∀ (st : ScanState) (c : Char), c ≠ '{' → c ≠ '}' → st.inParam = false →
      scanStep st c = st) ∧
    (∀ p : String, (scanPattern p).depth ≠ 0 →
      (extractPatternNamesW p).2 = (scanPattern p).warnings + 1) ∧
    (∀ p : String, (scanPattern p).depth = 0 →
      (extractPatternNamesW p).2 = (scanPattern p).warnings) := by
  refine ⟨fun st h => ?_, fun st h => ?_, fun st h hn => ?_, fun st h hn => ?_,
    fun st h => ?_, fun st c h1 h2 h => ?_, fun st c h1 h2 h => ?_,
    fun p h => ?_, fun p h => ?_⟩ <;>
    simp_all [scanStep, extractPatternNamesW]

/-- Witness for C7: one scan step from the initial state on `{`. -/
theorem C7_pattern_scan_witness :
    scanStep initScan '{' =
      { initScan with inParam := true, depth := initScan.depth + 1, currentName := "" } :=
  C7_pattern_scan.1 initScan rfl

/-! ## Positional consumption of path names (claim C6) -/

theorem runParamsAux_allOK (g : GlobalState) (rw : ResponseWriter) (pathKeys : List String)
    (params : List ParamSpec) (keyIdx : Nat) (acc : List (Option String))
    (hall : ∀ p ∈ params, ∃ d, p = ParamSpec.extractor true d ∧ ∀ k, d k = none)
    (hlen : keyIdx + params.length ≤ pathKeys.length) :
    runParamsAux g rw pathKeys keyIdx params acc =
      .invoke (acc.reverse ++ ((pathKeys.drop keyIdx).take params.length).map some) := by
  induction params generalizing keyIdx acc with
  | nil => simp [runParamsAux]
  | cons p rest ih =>
    obtain ⟨d, rfl, hd⟩ := hall p (List.mem_cons_self p rest)
    have hlt : keyIdx < pathKeys.length := by
      simp only [List.length_cons] at hlen
      omega
    have hget : pathKeys[keyIdx]? = some pathKeys[keyIdx] := List.getElem?_eq_getElem hlt
    have hrec := ih (keyIdx + 1) (some pathKeys[keyIdx] :: acc)
      (fun q hq => hall q (List.mem_cons_of_mem _ hq))
      (by simp only [List.length_cons] at hlen; omega)
    simp only [runParamsAux, if_true, hget, hd]
    rw [hrec]
    congr 1
    rw [List.reverse_cons, List.append_assoc, List.singleton_append,
      List.drop_eq_getElem_cons hlt]
    simp only [List.take_succ_cons, List.map_cons, List.length_cons]

/-- C6: the pattern `/items/{category}/{id}` yields the ordered path-name
list `["category", "id"]`; the loop consumes that list positionally, one
entry per key-settable extractor parameter in declared order (never by
name), and panics when a key-settable parameter is reached after the list
is exhausted. -/
theorem C6_positional_path_names :
    extractPatternNames "/items/{category}/{id}" = ["category", "id"] ∧
    (∀ (g : GlobalState) (rw : ResponseWriter) (pathKeys : List String) (keyIdx : Nat)
        (decode : Option String → Option GoError) (rest : List ParamSpec)
        (acc : List (Option String)),
      pathKeys[keyIdx]? = none →
      runParamsAux g rw pathKeys keyIdx (.extractor true decode :: rest) acc = .panicked) ∧
    (∀ (g : GlobalState) (rw : ResponseWriter) (pathKeys : List String)
        (params : List ParamSpec) (keyIdx : Nat) (acc : List (Option String)),
      (∀ p ∈ params, ∃ d, p = ParamSpec.extractor true d ∧ ∀ k, d k = none) →
      keyIdx + params.length ≤ pathKeys.length →
      runParamsAux g rw pathKeys keyIdx params acc =
        .invoke (acc.reverse ++ ((pathKeys.drop keyIdx).take params.length).map some)) := by
  refine ⟨by rfl, fun g rw pathKeys keyIdx decode rest acc h => ?_,
    fun g rw pathKeys params keyIdx acc hall hlen =>
      runParamsAux_allOK g rw pathKeys params keyIdx acc hall hlen⟩
  simp only [runParamsAux, if_true, h]

/-- Witness for C6: two successive key-settable extractors on the spec's
example pattern consume "category" then "id", in that order. -/
theorem C6_positional_path_names_witness :
    runParams ⟨none, none⟩ ResponseWriter.fresh "/items/{category}/{id}"
      [ParamSpec.extractor true (fun _ => none), ParamSpec.extractor true (fun _ => none)] =
      .invoke [some "category", some "id"] := by
  show runParamsAux _ _ (extractPatternNames "/items/{category}/{id}") 0 _ [] = _
  rw [C6_positional_path_names.1]
  exact (C6_positional_path_names.2.2 ⟨none, none⟩ ResponseWriter.fresh ["category", "id"]
    [ParamSpec.extractor true (fun _ => none), ParamSpec.extractor true (fun _ => none)] 0 []
    (by
      intro p hp
      rcases List.mem_cons.mp hp with h | hp2
      · exact ⟨fun _ => none, h, fun k => rfl⟩
      · rcases List.mem_cons.mp hp2 with h | h
        · exact ⟨fun _ => none, h, fun k => rfl⟩
        · exact absurd h (List.not_mem_nil p))
    (by decide)).trans (by rfl)

/-! ## Extraction-failure classification (claim C1) -/

/-- The source's kind→(status, tag, message) mapping agrees with the
spec's §4.4 table for status and tag on every kind, and carries the
failure's message through except for the body-read kind. -/
theorem extractErrToHTTP_eq_spec (e : ExtractError) :
    extractErrToHTTP e = ⟨specStatusOf e.errType, specTagOf e.errType, amendedMsgOf e⟩ := by
  unfold extractErrToHTTP specStatusOf specTagOf amendedMsgOf
  split_ifs <;> rfl

/-- C1 (counterexample to the claim as stated): for the body-read kind the
extraction failure's human message is NOT carried through unchanged — the
structured error replaces it with a fixed text. -/
theorem C1_bodyread_message_not_carried :
    (toHTTPErrorSome (.extractErr (NewBodyReadError ("connection reset")))).message ≠
      (NewBodyReadError ("connection reset")).message ∧
    (toHTTPErrorSome (.extractErr (NewBodyReadError ("connection reset")))).message =
      "unable to process request" ∧
    (NewBodyReadError ("connection reset")).message = "failed to read request body" := by
  refine ⟨?_, rfl, rfl⟩
  decide

/-- C1 (amended): when a declared extractor's decode step fails with an
extraction failure `e` (no custom error hook, configuration present), the
pipeline stops without invoking the handler and writes exactly the
structured error whose status/tag pair is the fixed §4.4 table entry for
`e`'s kind, and whose message is the failure's message carried through
unchanged — except for the body-read kind, which carries the fixed text
"unable to process request" instead. -/
theorem C1_extraction_failure_mapping
    (g : GlobalState) (c : Config) (rw : ResponseWriter) (pathKeys : List String)
    (keyIdx : Nat) (acc : List (Option String)) (ks : Bool)
    (decode : Option String → Option GoError) (rest : List ParamSpec)
    (e : ExtractError) (k : Option String)
    (hhook : g.customErrorHandler = none)
    (hcfg : g.config = some c)
    (hfresh : rw.headerWritten = false)
    (hkey : nextKeyOf ks pathKeys keyIdx = some k)
    (hdec : decode k = some (.extractErr e)) :
    runParamsAux g rw pathKeys keyIdx (.extractor ks decode :: rest) acc =
      .errorResp (.ok
        (((rw.headerSet ("Content-Type") ("application/json; charset=utf-8")).writeHeader
            (specStatusOf e.errType)).write
          (Chunk.json
            (encodeHTTPError ⟨specStatusOf e.errType, specTagOf e.errType, amendedMsgOf e⟩)))) ∧
    (runParamsAux g rw pathKeys keyIdx (.extractor ks decode :: rest) acc).isInvoke = false := by
  have herr : handleError g rw (.extractErr e) =
      .ok (((rw.headerSet ("Content-Type") ("application/json; charset=utf-8")).writeHeader
          (specStatusOf e.errType)).write
        (Chunk.json
          (encodeHTTPError ⟨specStatusOf e.errType, specTagOf e.errType, amendedMsgOf e⟩))) := by
    unfold handleError
    rw [hhook, hcfg]
    show WriteOutcome.ok _ = _
    rw [show toHTTPErrorSome (.extractErr e) = extractErrToHTTP e from rfl,
      extractErrToHTTP_eq_spec e, hfresh]
    simp
  have hrun : runParamsAux g rw pathKeys keyIdx (.extractor ks decode :: rest) acc =
      .errorResp (handleError g rw (.extractErr e)) := by
    cases ks with
    | false =>
      have hk : k = none := by
        have := hkey
        simp [nextKeyOf] at this
        exact this.symm
      subst hk
      simp [runParamsAux, hdec]
    | true =>
      have hkey2 : (pathKeys[keyIdx]?).map some = some k := by
        simpa [nextKeyOf] using hkey
      obtain ⟨s, hs, hk⟩ := Option.map_eq_some'.mp hkey2
      subst hk
      simp [runParamsAux, hs, hdec]
  rw [hrun, herr]
  exact ⟨rfl, rfl⟩

/-- Witness for C1 at a concrete missing-path failure on a one-parameter
handler. -/
theorem C1_extraction_failure_mapping_witness :
    runParamsAux ⟨some ⟨true⟩, none⟩ ResponseWriter.fresh ["id"] 0
        [ParamSpec.extractor true
          (fun _ => some (.extractErr (NewMissingPathError ("id"))))] [] =
      .errorResp (.ok
        (((ResponseWriter.fresh.headerSet ("Content-Type")
              ("application/json; charset=utf-8")).writeHeader
            (specStatusOf (NewMissingPathError ("id")).errType)).write
          (Chunk.json
            (encodeHTTPError
              ⟨specStatusOf (NewMissingPathError ("id")).errType,
               specTagOf (NewMissingPathError ("id")).errType,
               amendedMsgOf (NewMissingPathError ("id"))⟩)))) :=
  (C1_extraction_failure_mapping ⟨some ⟨true⟩, none⟩ ⟨true⟩ ResponseWriter.fresh ["id"] 0 []
    true (fun _ => some (.extractErr (NewMissingPathError ("id")))) []
    (NewMissingPathError ("id")) (some "id") rfl rfl rfl rfl rfl).1

/-! ## Failure wins over payload (claim C2) -/

/-- With no custom hook and a present configuration, `handleError` always
completes and appends exactly the structured-error JSON to the body. -/
theorem handleError_body (g : GlobalState) (c : Config) (rw : ResponseWriter) (e : GoError)
    (hhook : g.customErrorHandler = none) (hcfg : g.config = some c) :
    ∃ rwOut, handleError g rw e = .ok rwOut ∧
      rwOut.body = rw.body ++ [Chunk.json (encodeHTTPError (toHTTPErrorSome e))] := by
  unfold handleError
  rw [hhook, hcfg]
  refine ⟨_, rfl, ?_⟩
  simp only [ResponseWriter.write_body]
  split <;> simp

/-- The writer `handleResult` prepares before dispatching on the failure:
extra headers added, then the explicit status committed when non-zero. -/
def resultPrep (rw : ResponseWriter) (r : ResultAny) : ResponseWriter :=
  let rw1 := match r.headers with
    | some hs => WriteHeadersRW rw hs
    | none => rw
  if r.code ≠ 0 then rw1.writeHeader r.code else rw1

theorem resultPrep_body (rw : ResponseWriter) (r : ResultAny) :
    (resultPrep rw r).body = rw.body := by
  obtain ⟨code, hs, d, err⟩ := r
  unfold resultPrep
  cases hs <;> (repeat' split) <;> simp

/-- C2: a result envelope with a non-nil failure serializes the failure and
never the payload: the outcome is identical for any two payload values, the
written body is exactly the structured-error JSON, and on the spec's
example `Result{Code:500, Data:"X", Err:E}` the response has status 500
and a body that does not contain "X". -/
theorem C2_failure_wins_over_payload :
    (∀ (g : GlobalState) (rw : ResponseWriter) (code : Int)
        (hs : Option (List (String × String))) (d d' : Payload) (e : GoError),
      handleResult g rw ⟨code, hs, d, some e⟩ = handleResult g rw ⟨code, hs, d', some e⟩) ∧
    (∀ (g : GlobalState) (c : Config) (rw : ResponseWriter) (r : ResultAny) (e : GoError),
      g.customErrorHandler = none → g.config = some c → r.err = some e →
      ∃ rwOut, handleResult g rw r = .ok rwOut ∧
        rwOut.body = rw.body ++ [Chunk.json (encodeHTTPError (toHTTPErrorSome e))]) ∧
    handleResult ⟨some ⟨true⟩, none⟩ ResponseWriter.fresh
        ⟨500, none, Payload.str "X", some (.plain "boom")⟩ =
      .ok { statusCode := 500, headerWritten := true,
            headers := [("Content-Type", "application/json; charset=utf-8")],
            body := [Chunk.json [("code", JVal.num 500), ("error", JVal.str "internal_error")]],
            warnings := 0 } ∧
    Chunk.text "X" ∉
      [Chunk.json [("code", JVal.num 500), ("error", JVal.str "internal_error")]] := by
  refine ⟨fun g rw code hs d d' e => rfl, fun g c rw r e hhook hcfg hre => ?_, by rfl, by decide⟩
  have hr : handleResult g rw r = handleError g (resultPrep rw r) e := by
    unfold handleResult resultPrep
    rw [hre]
  obtain ⟨rwOut, h1, h2⟩ := handleError_body g c (resultPrep rw r) e hhook hcfg
  exact ⟨rwOut, hr.trans h1, by rw [h2, resultPrep_body]⟩

/-- Witness for C2 at the spec's example envelope. -/
theorem C2_failure_wins_over_payload_witness :
    ∃ rwOut, handleResult ⟨some ⟨true⟩, none⟩ ResponseWriter.fresh
        ⟨500, none, Payload.str ("X"), some (.plain "boom")⟩ = .ok rwOut ∧
      rwOut.body = ResponseWriter.fresh.body ++
        [Chunk.json (encodeHTTPError (toHTTPErrorSome (.plain "boom")))] :=
  C2_failure_wins_over_payload.2.1 ⟨some ⟨true⟩, none⟩ ⟨true⟩ ResponseWriter.fresh
    ⟨500, none, Payload.str ("X"), some (.plain "boom")⟩ (.plain "boom") rfl rfl rfl

/-! ## Nil-configuration dereference on the serialization paths (claim C9) -/

/-- C9 (code bug): with the configuration never set and never lazily
initialized, both `handleCommonTypes`'s JSON arm and `handleError`'s final
encode read the raw package variable `config` (not `getConfig()`) and
dereference nil — a runtime panic — even though `getConfig` would have
lazily installed a default configuration (third conjunct). -/
theorem C9_nil_config_dereference :
    handleCommonTypes ⟨none, none⟩ ResponseWriter.fresh
        (.jsonData [("message", JVal.str "hello")]) = .nilDeref ∧
    handleError ⟨none, none⟩ ResponseWriter.fresh (.plain "boom") = .nilDeref ∧
    (getConfig ⟨none, none⟩).1.config = some { enableValidation := true } :=
  ⟨rfl, rfl, rfl⟩
